import Mathlib

/-!
Shallow embedding of the data pipeline of `src/dashboard.py`
(e-commerce analytics dashboard).

The pipeline: a CSV is loaded into an event table (`load_data`,
lines 131-148), the table is filtered by an inclusive date range
(lines 176-177), and a fixed set of aggregations is computed over the
filtered rows (lines 192-199, 238, 265-267, 291, 315, 363).

Timestamps are modelled as natural numbers (seconds since an epoch);
the date component of a timestamp is its day index (`ts / 86400`),
mirroring pandas' `.dt.date`.  Prices are rationals (the dashboard's
floats carry exact decimal data here; no floating-point rounding is
claimed).  A pandas `NaN` result of an aggregation over an empty
series is modelled as `Option.none`.
-/

namespace Dashboard

/-- Date component of a timestamp, mirroring `.dt.date` / `.date()`:
the timestamp's day index. -/
def dateOf (ts : Nat) : Nat := ts / 86400

/-- One row of the event table (`df`).  `brand` and `category_code`
are nullable columns, modelled with `Option` (`none` = pandas `NaN`). -/
structure Event where
  event_time : Nat
  event_type : String
  product_id : Nat
  brand : Option String
  price : ℚ
  category_code : Option String
deriving DecidableEq

/-- The boolean mask of line 176:
`(df.event_time.dt.date >= start_date) & (df.event_time.dt.date <= end_date)`. -/
def inRange (s e : Nat) (r : Event) : Bool :=
  decide (s ≤ dateOf r.event_time) && decide (dateOf r.event_time ≤ e)

/-- Line 177: `filtered_df = df.loc[mask]`. -/
def filterRange (s e : Nat) (t : List Event) : List Event :=
  t.filter (inRange s e)

/-- Line 165 helper: minimum of the `event_time` column (`.min()`),
`none` on an empty table. -/
def min_event_time : List Event → Option Nat
  | [] => none
  | r :: rs => some ((rs.map (·.event_time)).foldl min r.event_time)

/-- Line 166 helper: maximum of the `event_time` column (`.max()`). -/
def max_event_time : List Event → Option Nat
  | [] => none
  | r :: rs => some ((rs.map (·.event_time)).foldl max r.event_time)

/-- Line 165: `df['event_time'].min().date()`. -/
def min_date (t : List Event) : Option Nat := (min_event_time t).map dateOf

/-- Line 166: `df['event_time'].max().date()`. -/
def max_date (t : List Event) : Option Nat := (max_event_time t).map dateOf

/-- The `price` column of a table. -/
def price_list (t : List Event) : List ℚ := t.map (·.price)

/-- Line 193: `len(filtered_df['product_id'].unique())`. -/
def distinct_product_count (t : List Event) : Nat :=
  (t.map (·.product_id)).dedup.length

/-- Line 195: `filtered_df['price'].max()`; `none` models the `NaN`
pandas returns on an empty series. -/
def price_max (t : List Event) : Option ℚ :=
  match price_list t with
  | [] => none
  | x :: xs => some (xs.foldl max x)

/-- Line 197: `filtered_df['price'].min()`. -/
def price_min (t : List Event) : Option ℚ :=
  match price_list t with
  | [] => none
  | x :: xs => some (xs.foldl min x)

/-- Linear-interpolation quantile of a list, as computed by pandas
(`quantile` with the default interpolation): for a sorted sample
`s` of size `n`, the `q`-quantile sits at position `q * (n - 1)`.
`none` on an empty list (pandas returns `NaN`). -/
def quantile (q : ℚ) (l : List ℚ) : Option ℚ :=
  let s := List.insertionSort (· ≤ ·) l
  if s.length = 0 then none
  else
    let pos : ℚ := q * ((s.length : ℚ) - 1)
    let f : Nat := pos.floor.toNat
    let g : ℚ := pos - (f : ℚ)
    let lo := s.getD f 0
    let hi := s.getD (f + 1) lo
    some (lo + g * (hi - lo))

/-- Line 199: `filtered_df['price'].median()`. -/
def price_median (t : List Event) : Option ℚ := quantile (1/2) (price_list t)

/-- Mean of the `price` column, `none` on an empty table. -/
def price_mean (t : List Event) : Option ℚ :=
  if (price_list t).length = 0 then none
  else some ((price_list t).sum / ((price_list t).length : ℚ))

/-- Sample variance (`ddof = 1`) of the `price` column; this is the
square of the `std` reported by `describe()`.  It is kept squared so
the value stays rational; it is `none` exactly when pandas' `std` is
`NaN` (fewer than two samples). -/
def price_var (t : List Event) : Option ℚ :=
  match price_mean t with
  | none => none
  | some m =>
      if (price_list t).length ≤ 1 then none
      else some (((price_list t).map (fun x => (x - m) ^ 2)).sum /
        (((price_list t).length : ℚ) - 1))

/-- The record produced by line 363, `filtered_df['price'].describe()`:
count, mean, std (kept as its square `std_sq`, see `price_var`),
min, quartiles, max. -/
structure PriceSummary where
  count : Nat
  mean : Option ℚ
  std_sq : Option ℚ
  min : Option ℚ
  q25 : Option ℚ
  q50 : Option ℚ
  q75 : Option ℚ
  max : Option ℚ
deriving DecidableEq

/-- Line 363: `filtered_df['price'].describe()`. -/
def describe_price (t : List Event) : PriceSummary :=
  ⟨(price_list t).length, price_mean t, price_var t, price_min t,
    quantile (1/4) (price_list t), quantile (1/2) (price_list t),
    quantile (3/4) (price_list t), price_max t⟩

/-- First occurrences of the elements of a list, in order, skipping
elements already in `seen`.  Used to model the group keys formed by
pandas `groupby` / `value_counts` (which build one group per distinct
non-null key). -/
def uniqAux {α : Type} [DecidableEq α] (seen : List α) : List α → List α
  | [] => []
  | x :: xs => if x ∈ seen then uniqAux seen xs else x :: uniqAux (x :: seen) xs

/-- Distinct elements of a list in first-seen order. -/
def uniq {α : Type} [DecidableEq α] (l : List α) : List α := uniqAux [] l

/-- The distinct non-null values of the `brand` column, in first-seen
order: the group keys of `value_counts()` / `groupby('brand')`, both
of which drop null keys (`dropna=True` is the pandas default). -/
def brandKeys (t : List Event) : List String := uniq (t.filterMap (·.brand))

/-- Insert `a` into a list sorted by `f` descending, keeping it sorted. -/
def insertDescBy {α β : Type} [LinearOrder β] (f : α → β) (a : α) :
    List α → List α
  | [] => [a]
  | b :: bs => if f b ≤ f a then a :: b :: bs else b :: insertDescBy f a bs

/-- Sort a list descending by the key `f` (models pandas
`sort_values(ascending=False)`; pandas does not promise a tie order,
this model keeps ties in first-seen order). -/
def sortDescBy {α β : Type} [LinearOrder β] (f : α → β) : List α → List α
  | [] => []
  | a :: as => insertDescBy f a (sortDescBy f as)

/-- Group keys paired with an aggregate, sorted descending by the
aggregate, truncated to the first `n` rows: the common
`... .sort_values(ascending=False).head(n)` shape of lines 238,
265-267 and 291. -/
def topBy {α β : Type} [LinearOrder β] (keys : List α) (v : α → β)
    (n : Nat) : List (α × β) :=
  (sortDescBy Prod.snd (keys.map (fun b => (b, v b)))).take n

/-- Number of rows of the table carrying brand `b`: one entry of
`filtered_df['brand'].value_counts()` (line 238). -/
def brand_count (t : List Event) (b : String) : Nat :=
  t.countP (fun r => decide (r.brand = some b))

/-- Line 238: `filtered_df['brand'].value_counts().head(n)`
(the dashboard uses `n = 10`). -/
def top_brands_by_count (t : List Event) (n : Nat) : List (String × Nat) :=
  topBy (brandKeys t) (brand_count t) n

/-- The indicator `event_type.eq('purchase')` of line 266, as the
number it becomes when multiplied with a price. -/
def purchase_indicator (r : Event) : ℚ :=
  if r.event_type = "purchase" then 1 else 0

/-- Lines 265-267, the aggregate of one brand group: the lambda
`(x * filtered_df.loc[x.index, 'event_type'].eq('purchase')).sum()`
applied to the `price` series `x` of the rows with brand `b`. -/
def brand_sales_value (t : List Event) (b : String) : ℚ :=
  ((t.filter (fun r => decide (r.brand = some b))).map
    (fun r => r.price * purchase_indicator r)).sum

/-- Lines 265-267: `brand_sales = filtered_df.groupby('brand').agg(...)
.sort_values('price', ascending=False).head(n)` (dashboard: `n = 10`). -/
def top_brands_by_purchase_value (t : List Event) (n : Nat) :
    List (String × ℚ) :=
  topBy (brandKeys t) (brand_sales_value t) n

/-- The formula the specification uses for the purchase value of a
brand: total `price` over exactly the rows of brand `b` whose
`event_type` is `"purchase"`.  Stated from the spec's words, to be
compared with `brand_sales_value` (the code's lambda). -/
def purchaseValueSpec (t : List Event) (b : String) : ℚ :=
  ((t.filter (fun r =>
      decide (r.brand = some b ∧ r.event_type = "purchase"))).map
    (·.price)).sum

/-- Line 291 helper: `filtered_df[filtered_df['event_type'] == 'purchase']`. -/
def purchasedRows (t : List Event) : List Event :=
  t.filter (fun r => decide (r.event_type = "purchase"))

/-- Line 291, the aggregate of one brand group:
`.groupby('brand')['product_id'].nunique()` over the purchase rows. -/
def brand_unique_products (t : List Event) (b : String) : Nat :=
  (((purchasedRows t).filter (fun r => decide (r.brand = some b))).map
    (·.product_id)).dedup.length

/-- Line 291: `unique_products = filtered_df[... == 'purchase']
.groupby('brand')['product_id'].nunique()
.sort_values(ascending=False).head(n)` (dashboard: `n = 10`). -/
def top_brands_by_unique_purchased_products (t : List Event) (n : Nat) :
    List (String × Nat) :=
  topBy (brandKeys (purchasedRows t)) (brand_unique_products t) n

/-- The `(date, event_type)` group key of line 315. -/
def dayTypeKey (r : Event) : Nat × String :=
  (dateOf r.event_time, r.event_type)

/-- Line 315: `filtered_df.groupby([filtered_df['event_time'].dt.date,
'event_type']).size()` — one row per distinct `(date, event_type)`
pair, giving the number of events with that key.  (pandas sorts the
group keys; the key order is irrelevant to every property claimed of
this table, so this model lists keys in first-seen order.) -/
def events_per_day_by_type (t : List Event) :
    List ((Nat × String) × Nat) :=
  (uniq (t.map dayTypeKey)).map
    (fun k => (k, t.countP (fun r => decide (dayTypeKey r = k))))

/-- A CSV source at token level: one list of fields per line, the
first line being the header.  Two sources are the same input (same
bytes) exactly when they are equal. -/
abbrev Csv := List (List String)

/-- Errors of the loading stage.  `parseError` models pandas'
`ParserError`/`EmptyDataError`, `keyError` the `KeyError` of
`df['event_time']` on a missing column, `timestampError` the failure
of `pd.to_datetime`, and `noData` the `st.error`/`st.stop` path of
lines 159-160. -/
inductive LoadError where
  | parseError
  | keyError
  | timestampError
  | noData
deriving DecidableEq

/-- Models `pd.read_csv` (line 146) at token level: an empty source
or a record whose field count differs from the header's is malformed
and raises; otherwise the header and the data records are returned. -/
def read_csv (rows : Csv) :
    Except LoadError (List String × List (List String)) :=
  match rows with
  | [] => .error .parseError
  | header :: body =>
      if body.all (fun r => decide (r.length = header.length))
      then .ok (header, body)
      else .error .parseError

/-- Models `pd.to_datetime` (line 147) on one cell: a nonempty digit
string parses to the timestamp it denotes, anything else raises. -/
def parse_timestamp (s : String) : Option Nat :=
  if s.data ≠ [] ∧ s.data.all Char.isDigit
  then some (s.data.foldl (fun n c => 10 * n + (c.toNat - Char.toNat '0')) 0)
  else none

/-- Parse the `event_time` cell (column index `i`) of every record,
failing on the first unparseable cell. -/
def parseTimes (i : Nat) : List (List String) → Except LoadError (List Nat)
  | [] => .ok []
  | r :: rs =>
      match parse_timestamp (r.getD i "") with
      | none => .error .timestampError
      | some ts =>
          match parseTimes i rs with
          | .error e => .error e
          | .ok l => .ok (ts :: l)

/-- The loaded table as `load_data` returns it: the header, the raw
records, and the parsed `event_time` column. -/
structure Frame where
  header : List String
  cells : List (List String)
  event_times : List Nat
deriving DecidableEq

/-- Lines 131-148: `load_data` — read the CSV, look up the
`event_time` column, convert it to timestamps. -/
def load_data (rows : Csv) : Except LoadError Frame :=
  match read_csv rows with
  | .error e => .error e
  | .ok (hs, body) =>
      match hs.findIdx? (fun c => decide (c = "event_time")) with
      | none => .error .keyError
      | some i =>
          match parseTimes i body with
          | .error e => .error e
          | .ok ts => .ok ⟨hs, body, ts⟩

/-- The date filter of lines 176-177 at frame level: keep the records
whose `event_time` date lies in `[s, e]`. -/
def filterFrame (s e : Nat) (f : Frame) : Frame :=
  let kept := (f.cells.zip f.event_times).filter
    (fun p => decide (s ≤ dateOf p.2 ∧ dateOf p.2 ≤ e))
  ⟨f.header, kept.map Prod.fst, kept.map Prod.snd⟩

/-- One run of the pipeline on a source: load, then filter (the
aggregations are functions of the returned filtered frame).  An
`Except.error` result is a run that halted in the loader, before any
filtering or aggregation. -/
def runPipeline (rows : Csv) (s e : Nat) : Except LoadError Frame :=
  match load_data rows with
  | .error er => .error er
  | .ok f => .ok (filterFrame s e f)

/-- Lines 152-160: the data-loading decision of the script — the
uploaded file if present, else the default `2019-Oct.csv` if present
in the working directory, else `st.error` + `st.stop`. -/
def runApp (uploaded : Option Csv) (defaultFile : Option Csv)
    (s e : Nat) : Except LoadError Frame :=
  match uploaded with
  | some f => runPipeline f s e
  | none =>
      match defaultFile with
      | some f => runPipeline f s e
      | none => .error .noData

/-- The memo table of `@st.cache_data` (line 131): finished calls of
`load_data`, keyed by the input source. -/
abbrev Cache := List (Csv × Except LoadError Frame)

/-- A cache is well formed when every stored result is the result of
a fresh parse of its key. -/
def CacheWF (cache : Cache) : Prop :=
  ∀ p ∈ cache, p.2 = load_data p.1

/-- `load_data` through the `@st.cache_data` decorator: a repeated
identical input is answered from the cache, a new input is parsed
once and recorded. -/
def load_data_cached (cache : Cache) (input : Csv) :
    Except LoadError Frame × Cache :=
  match cache.find? (fun p => decide (p.1 = input)) with
  | some p => (p.2, cache)
  | none => (load_data input, (input, load_data input) :: cache)

/-- The two rows of the spec's `top_brands_by_purchase_value` test:
`(brand=A, price=10, event_type=view)` and
`(brand=A, price=5, event_type=purchase)`. -/
def exampleC2 : List Event :=
  [⟨0, "view", 1, some "A", 10, none⟩,
   ⟨0, "purchase", 2, some "A", 5, none⟩]

/-- Rows whose brands are `[A, A, A, B, B, C]`, the spec's
`top_brands_by_count` test. -/
def exampleBrands : List Event :=
  [⟨0, "view", 1, some "A", 1, none⟩,
   ⟨0, "view", 2, some "A", 1, none⟩,
   ⟨0, "view", 3, some "A", 1, none⟩,
   ⟨0, "view", 4, some "B", 1, none⟩,
   ⟨0, "view", 5, some "B", 1, none⟩,
   ⟨0, "view", 6, some "C", 1, none⟩]

/-- Two rows on the same date with different `event_type` values, the
spec's `events_per_day_by_type` test. -/
def exampleTwoTypes : List Event :=
  [⟨0, "view", 1, some "A", 1, none⟩,
   ⟨10, "purchase", 2, some "B", 2, none⟩]

/-- A table with events on days 0 and 2 only, so that the valid range
`[1, 1]` matches zero rows. -/
def sparseTable : List Event :=
  [⟨0, "view", 1, some "A", 1, none⟩,
   ⟨2 * 86400, "view", 2, some "B", 2, none⟩]

/-- A table with events on days 1 and 2, used to instantiate the
full-range identity. -/
def fullTable : List Event :=
  [⟨86400, "view", 1, some "A", 1, none⟩,
   ⟨2 * 86400 + 3, "purchase", 2, some "B", 2, none⟩]

/-- A malformed CSV source: the second record has three fields, the
header two. -/
def badCsv : Csv := [["a", "b"], ["1", "2", "3"]]

/-- A well-formed CSV source with an `event_time` column. -/
def goodCsv : Csv := [["event_time"], ["0"]]

lemma mem_uniqAux {α : Type} [DecidableEq α] (seen l : List α) (x : α) :
    x ∈ uniqAux seen l ↔ x ∈ l ∧ x ∉ seen := by
  induction l generalizing seen with
  | nil => simp [uniqAux]
  | cons a as ih =>
      by_cases ha : a ∈ seen
      · simp only [uniqAux, if_pos ha, ih, List.mem_cons]
        constructor
        · exact fun h => ⟨Or.inr h.1, h.2⟩
        · rintro ⟨h | h, hx⟩
          · exact absurd (h ▸ ha) hx
          · exact ⟨h, hx⟩
      · simp only [uniqAux, if_neg ha, List.mem_cons, ih]
        by_cases hxa : x = a
        · subst hxa; simp [ha]
        · simp [hxa]

lemma mem_uniq {α : Type} [DecidableEq α] (l : List α) (x : α) :
    x ∈ uniq l ↔ x ∈ l := by
  simp [uniq, mem_uniqAux]

lemma nodup_uniqAux {α : Type} [DecidableEq α] (seen l : List α) :
    (uniqAux seen l).Nodup := by
  induction l generalizing seen with
  | nil => simp [uniqAux]
  | cons a as ih =>
      by_cases ha : a ∈ seen
      · simpa [uniqAux, if_pos ha] using ih seen
      · rw [uniqAux, if_neg ha]
        refine List.nodup_cons.mpr ⟨?_, ih (a :: seen)⟩
        intro hmem
        exact ((mem_uniqAux (a :: seen) as a).mp hmem).2 (List.mem_cons_self a seen)

lemma nodup_uniq {α : Type} [DecidableEq α] (l : List α) :
    (uniq l).Nodup := nodup_uniqAux [] l

lemma mem_brandKeys {t : List Event} {b : String} (h : b ∈ brandKeys t) :
    ∃ r ∈ t, r.brand = some b := by
  rw [brandKeys, mem_uniq, List.mem_filterMap] at h
  exact h

lemma insertDescBy_perm {α β : Type} [LinearOrder β] (f : α → β) (a : α)
    (l : List α) : List.Perm (insertDescBy f a l) (a :: l) := by
  induction l with
  | nil => exact List.Perm.refl _
  | cons b bs ih =>
      rw [insertDescBy]
      split
      · exact List.Perm.refl _
      · exact List.Perm.trans (List.Perm.cons b ih) (List.Perm.swap a b bs)

lemma sortDescBy_perm {α β : Type} [LinearOrder β] (f : α → β)
    (l : List α) : List.Perm (sortDescBy f l) l := by
  induction l with
  | nil => exact List.Perm.refl _
  | cons a as ih =>
      exact List.Perm.trans (insertDescBy_perm f a (sortDescBy f as))
        (List.Perm.cons a ih)

lemma pairwise_insertDescBy {α β : Type} [LinearOrder β] {f : α → β}
    (a : α) {l : List α} (h : l.Pairwise (fun x y => f y ≤ f x)) :
    (insertDescBy f a l).Pairwise (fun x y => f y ≤ f x) := by
  induction l with
  | nil => simp [insertDescBy]
  | cons b bs ih =>
      rw [List.pairwise_cons] at h
      rw [insertDescBy]
      split
      · rename_i hba
        refine List.pairwise_cons.mpr ⟨?_, List.pairwise_cons.mpr ⟨h.1, h.2⟩⟩
        intro y hy
        rcases List.mem_cons.mp hy with hyb | hybs
        · exact hyb ▸ hba
        · exact le_trans (h.1 y hybs) hba
      · rename_i hba
        refine List.pairwise_cons.mpr ⟨?_, ih h.2⟩
        intro y hy
        have hy' : y ∈ a :: bs :=
          (insertDescBy_perm f a bs).mem_iff.mp hy
        rcases List.mem_cons.mp hy' with hya | hybs
        · exact hya ▸ le_of_lt (lt_of_not_le hba)
        · exact h.1 y hybs

lemma pairwise_sortDescBy {α β : Type} [LinearOrder β] (f : α → β)
    (l : List α) :
    (sortDescBy f l).Pairwise (fun x y => f y ≤ f x) := by
  induction l with
  | nil => simp [sortDescBy]
  | cons a as ih => exact pairwise_insertDescBy a ih

lemma sorted_take_ge {α β : Type} [LinearOrder β] {f : α → β}
    {l : List α} (h : l.Pairwise (fun x y => f y ≤ f x)) (n : Nat)
    {x y : α} (hx : x ∈ l.take n) (hy : y ∈ l) (hyn : y ∉ l.take n) :
    f y ≤ f x := by
  rw [← List.take_append_drop n l, List.pairwise_append] at h
  have hy' : y ∈ l.take n ++ l.drop n := by
    rw [List.take_append_drop]; exact hy
  rcases List.mem_append.mp hy' with h1 | h2
  · exact absurd h1 hyn
  · exact h.2.2 x hx y h2

lemma topBy_spec {α β : Type} [DecidableEq α] [LinearOrder β]
    (keys : List α) (v : α → β) (n : Nat) :
    (topBy keys v n).Pairwise (fun a b => b.2 ≤ a.2)
    ∧ (topBy keys v n).length = min n keys.length
    ∧ (∀ p ∈ topBy keys v n, p.1 ∈ keys ∧ p.2 = v p.1)
    ∧ (∀ b ∈ keys, (b, v b) ∉ topBy keys v n →
        ∀ p ∈ topBy keys v n, v b ≤ p.2)
    ∧ (keys.Nodup → ((topBy keys v n).map Prod.fst).Nodup) := by
  have hperm : List.Perm (sortDescBy Prod.snd (keys.map (fun b => (b, v b))))
      (keys.map (fun b => (b, v b))) := sortDescBy_perm _ _
  have hpw := pairwise_sortDescBy (Prod.snd)
    (keys.map (fun b => (b, v b)))
  refine ⟨?_, ?_, ?_, ?_, ?_⟩
  · exact hpw.sublist (List.take_sublist n _)
  · rw [topBy, List.length_take, hperm.length_eq, List.length_map]
  · intro p hp
    have hp' : p ∈ keys.map (fun b => (b, v b)) :=
      hperm.mem_iff.mp (List.take_subset n _ hp)
    obtain ⟨b, hb, hbp⟩ := List.mem_map.mp hp'
    exact hbp ▸ ⟨hb, rfl⟩
  · intro b hb hnot p hp
    have hmem : (b, v b) ∈ sortDescBy Prod.snd
        (keys.map (fun x => (x, v x))) :=
      hperm.mem_iff.mpr (List.mem_map.mpr ⟨b, hb, rfl⟩)
    exact sorted_take_ge hpw n hp hmem hnot
  · intro hnd
    have h1 : ((sortDescBy Prod.snd (keys.map (fun b => (b, v b)))).map
        Prod.fst).Nodup := by
      refine (hperm.map Prod.fst).nodup_iff.mpr ?_
      have : (keys.map (fun b => (b, v b))).map Prod.fst = keys := by
        rw [List.map_map]; exact List.map_id'' (fun x => rfl) keys
      rw [this]; exact hnd
    exact h1.sublist ((List.take_sublist n _).map Prod.fst)

lemma foldl_min_le_init (l : List Nat) (x : Nat) : l.foldl min x ≤ x := by
  induction l generalizing x with
  | nil => exact le_refl x
  | cons a as ih => exact le_trans (ih (min x a)) (min_le_left x a)

lemma foldl_min_le_mem {l : List Nat} {y : Nat} (h : y ∈ l) (x : Nat) :
    l.foldl min x ≤ y := by
  induction l generalizing x with
  | nil => cases h
  | cons a as ih =>
      rcases List.mem_cons.mp h with hya | hyas
      · subst hya
        exact le_trans (foldl_min_le_init as (min x y)) (min_le_right x y)
      · exact ih hyas (min x a)

lemma le_foldl_max_init (l : List Nat) (x : Nat) : x ≤ l.foldl max x := by
  induction l generalizing x with
  | nil => exact le_refl x
  | cons a as ih => exact le_trans (le_max_left x a) (ih (max x a))

lemma le_foldl_max_mem {l : List Nat} {y : Nat} (h : y ∈ l) (x : Nat) :
    y ≤ l.foldl max x := by
  induction l generalizing x with
  | nil => cases h
  | cons a as ih =>
      rcases List.mem_cons.mp h with hya | hyas
      · subst hya
        exact le_trans (le_max_right x y) (le_foldl_max_init as (max x y))
      · exact ih hyas (max x a)

lemma min_event_time_le {t : List Event} {mt : Nat}
    (h : min_event_time t = some mt) : ∀ r ∈ t, mt ≤ r.event_time := by
  cases t with
  | nil => cases h
  | cons a as =>
      rw [min_event_time, Option.some_inj] at h
      intro r hr
      rcases List.mem_cons.mp hr with hra | hras
      · subst hra; exact h ▸ foldl_min_le_init _ _
      · exact h ▸ foldl_min_le_mem
          (List.mem_map.mpr ⟨r, hras, rfl⟩) a.event_time

lemma le_max_event_time {t : List Event} {Mt : Nat}
    (h : max_event_time t = some Mt) : ∀ r ∈ t, r.event_time ≤ Mt := by
  cases t with
  | nil => cases h
  | cons a as =>
      rw [max_event_time, Option.some_inj] at h
      intro r hr
      rcases List.mem_cons.mp hr with hra | hras
      · subst hra; exact h ▸ le_foldl_max_init _ _
      · exact h ▸ le_foldl_max_mem
          (List.mem_map.mpr ⟨r, hras, rfl⟩) a.event_time

lemma brand_sales_value_eq (t : List Event) (b : String) :
    brand_sales_value t b = purchaseValueSpec t b := by
  induction t with
  | nil => rfl
  | cons a as ih =>
      by_cases hb : a.brand = some b
      · by_cases hp : a.event_type = "purchase"
        · simp [brand_sales_value, purchaseValueSpec, purchase_indicator,
            List.filter_cons, hb, hp] at ih ⊢
          rw [ih]
        · simp [brand_sales_value, purchaseValueSpec, purchase_indicator,
            List.filter_cons, hb, hp] at ih ⊢
          rw [ih]
      · simp [brand_sales_value, purchaseValueSpec,
          List.filter_cons, hb] at ih ⊢
        rw [ih]

lemma countP_filterRange (s e : Nat) (r : Event) (t : List Event) :
    (filterRange s e t).countP (fun x => decide (x = r)) =
      if inRange s e r = true
      then t.countP (fun x => decide (x = r)) else 0 := by
  induction t with
  | nil => simp [filterRange]
  | cons a as ih =>
      rw [filterRange, List.filter_cons]
      by_cases har : a = r
      · subst har
        by_cases h : inRange s e a = true
        · simp [h, List.countP_cons, filterRange] at ih ⊢
          rw [ih]
        · simp [h, filterRange] at ih ⊢
          exact ih
      · by_cases h : inRange s e a = true
        · simp only [if_pos h, List.countP_cons, filterRange] at ih ⊢
          rw [ih]
          simp [har]
        · simp only [if_neg h, List.countP_cons, filterRange] at ih ⊢
          rw [ih]
          simp [har]

lemma parseTimes_error {i : Nat} {body : List (List String)}
    (h : ∃ r ∈ body, parse_timestamp (r.getD i "") = none) :
    parseTimes i body = .error .timestampError := by
  induction body with
  | nil => obtain ⟨r, hr, _⟩ := h; cases hr
  | cons r rs ih =>
      obtain ⟨r0, hr0, hnone⟩ := h
      rcases List.mem_cons.mp hr0 with hhead | htail
      · subst hhead
        rw [parseTimes, hnone]
      · rw [parseTimes]
        cases hp : parse_timestamp (r.getD i "") with
        | none => rfl
        | some ts => rw [ih ⟨r0, htail, hnone⟩]

/-- Claim C1: for every event table and every date range `(s, e)`, the
range filter returns exactly the rows whose date component of
`event_time` satisfies `s ≤ date ≤ e`, both endpoints inclusive: a row
is in the filtered view iff it is in the table and its date is in
range, and each row keeps its exact multiplicity (rows outside the
range occur zero times).  The filter is a pure function of the table
and the range, so it is deterministic and has no side effects. -/
theorem filterRange_exact_rows (t : List Event) (s e : Nat) (r : Event) :
    (r ∈ filterRange s e t ↔
      r ∈ t ∧ (s ≤ dateOf r.event_time ∧ dateOf r.event_time ≤ e))
    ∧ (filterRange s e t).countP (fun x => decide (x = r)) =
        (if s ≤ dateOf r.event_time ∧ dateOf r.event_time ≤ e
         then t.countP (fun x => decide (x = r)) else 0) := by
  constructor
  · simp [filterRange, List.mem_filter, inRange, Bool.and_eq_true,
      decide_eq_true_eq, and_assoc]
  · rw [countP_filterRange]
    by_cases h : s ≤ dateOf r.event_time ∧ dateOf r.event_time ≤ e
    · have hb : inRange s e r = true := by
        simp [inRange, h.1, h.2]
      rw [if_pos hb, if_pos h]
    · rw [if_neg ?_, if_neg h]
      intro hc
      apply h
      simpa [inRange, Bool.and_eq_true, decide_eq_true_eq] using hc

/-- Claim C3: for every event table whose minimum and maximum event
dates are `m` and `M`, filtering by any range `[s, e]` with
`s ≤ m` and `M ≤ e` (a range containing `[min_date, max_date]`)
returns the table itself. -/
theorem filterRange_full_range_identity (t : List Event) (s e m M : Nat)
    (hm : min_date t = some m) (hM : max_date t = some M)
    (hsm : s ≤ m) (hMe : M ≤ e) : filterRange s e t = t := by
  unfold min_date at hm
  unfold max_date at hM
  cases hmt : min_event_time t with
  | none => rw [hmt] at hm; cases hm
  | some mt =>
      cases hMt : max_event_time t with
      | none => rw [hMt] at hM; cases hM
      | some Mt =>
          rw [hmt, Option.map_some'] at hm
          rw [hMt, Option.map_some'] at hM
          have hm' : dateOf mt = m := Option.some_inj.mp hm
          have hM' : dateOf Mt = M := Option.some_inj.mp hM
          apply List.filter_eq_self.mpr
          intro r hr
          have h1 : mt ≤ r.event_time := min_event_time_le hmt r hr
          have h2 : r.event_time ≤ Mt := le_max_event_time hMt r hr
          have hd1 : s ≤ dateOf r.event_time := by
            calc s ≤ m := hsm
              _ = dateOf mt := hm'.symm
              _ ≤ dateOf r.event_time := Nat.div_le_div_right h1
          have hd2 : dateOf r.event_time ≤ e := by
            calc dateOf r.event_time ≤ dateOf Mt :=
                Nat.div_le_div_right h2
              _ = M := hM'
              _ ≤ e := hMe
          simp [inRange, hd1, hd2]

/-- Witness for C3: on a table with events on days 1 and 2, the range
`[0, 3]` contains `[min_date, max_date]` and the filter returns the
table unchanged. -/
theorem filterRange_full_range_identity_witness :
    min_date fullTable = some 1 ∧ max_date fullTable = some 2
    ∧ filterRange 0 3 fullTable = fullTable :=
  ⟨by decide, by decide,
    filterRange_full_range_identity fullTable 0 3 1 2
      (by decide) (by decide) (by decide) (by decide)⟩

/-- Claim C5: on an empty filtered view (a valid range matching zero
rows), every aggregation returns its well-defined empty / `NaN`
("no data") result rather than raising: the distinct product count is
`0`, the price extremes and median are `none`, and `describe_price`
is the all-`none` summary with count `0`.  (In this embedding every
aggregation is a total function, mirroring the pandas calls, which
return `NaN` rather than raising on empty series.) -/
theorem empty_view_aggregations (t : List Event) (s e : Nat)
    (h : filterRange s e t = []) :
    distinct_product_count (filterRange s e t) = 0
    ∧ price_max (filterRange s e t) = none
    ∧ price_min (filterRange s e t) = none
    ∧ price_median (filterRange s e t) = none
    ∧ describe_price (filterRange s e t) =
        ⟨0, none, none, none, none, none, none, none⟩ := by
  rw [h]
  decide

/-- Witness for C5: the valid range `[1, 1]` matches zero rows of a
table with events on days 0 and 2 only, and every aggregation returns
its "no data" value there. -/
theorem empty_view_aggregations_witness :
    filterRange 1 1 sparseTable = []
    ∧ (distinct_product_count (filterRange 1 1 sparseTable) = 0
      ∧ price_max (filterRange 1 1 sparseTable) = none
      ∧ price_min (filterRange 1 1 sparseTable) = none
      ∧ price_median (filterRange 1 1 sparseTable) = none
      ∧ describe_price (filterRange 1 1 sparseTable) =
          ⟨0, none, none, none, none, none, none, none⟩) :=
  ⟨by decide, empty_view_aggregations sparseTable 1 1 (by decide)⟩

/-- Claim C9: when no file is uploaded and the default `2019-Oct.csv`
is absent, the run reports the unrecoverable "no data" input error and
halts: the result is `Except.error`, so no filtering, aggregation or
rendering output is produced. -/
theorem missing_input_halts (s e : Nat) :
    runApp none none s e = Except.error LoadError.noData := rfl

/-- Claim C2: `top_brands_by_purchase_value` is ordered descending by
the per-brand sum of `price` over exactly the purchase rows
(`purchaseValueSpec`, the spec's formula — view rows contribute
nothing), returns at most `n` brands (exactly `n` when enough brands
exist), ranks every brand of the table (any brand left out has
purchase value at most that of every returned brand), and on the
spec's two-row test `[(A, 10, view), (A, 5, purchase)]` with `n = 1`
returns brand `A` with value `5`. -/
theorem top_brands_by_purchase_value_correct (t : List Event) (n : Nat) :
    (top_brands_by_purchase_value t n).Pairwise (fun a b => b.2 ≤ a.2)
    ∧ (top_brands_by_purchase_value t n).length = min n (brandKeys t).length
    ∧ (∀ p ∈ top_brands_by_purchase_value t n,
        p.2 = purchaseValueSpec t p.1 ∧ ∃ r ∈ t, r.brand = some p.1)
    ∧ (∀ b ∈ brandKeys t,
        (b, brand_sales_value t b) ∉ top_brands_by_purchase_value t n →
        ∀ p ∈ top_brands_by_purchase_value t n,
          purchaseValueSpec t b ≤ p.2)
    ∧ top_brands_by_purchase_value exampleC2 1 = [("A", (5 : ℚ))] := by
  obtain ⟨h1, h2, h3, h4, _⟩ :=
    topBy_spec (brandKeys t) (brand_sales_value t) n
  refine ⟨h1, h2, ?_, ?_, ?_⟩
  · intro p hp
    obtain ⟨hk, hv⟩ := h3 p hp
    exact ⟨hv.trans (brand_sales_value_eq t p.1), mem_brandKeys hk⟩
  · intro b hb hnot p hp
    have h := h4 b hb hnot p hp
    rwa [brand_sales_value_eq] at h
  · norm_num [top_brands_by_purchase_value, topBy, brandKeys, uniq,
      uniqAux, exampleC2, brand_sales_value, purchase_indicator,
      sortDescBy, insertDescBy, List.filter]
    decide

/-- Claim C4: `top_brands_by_count` returns the brands with the most
rows, ordered descending by row count, at most `n` of them (exactly
`n` when enough brands exist), each listed once (ties are resolved
deterministically, in first-seen order), every brand left out having
a count at most that of every returned brand; on rows with brands
`[A, A, A, B, B, C]` and `n = 2` it returns `[A, B]` with counts
`[3, 2]`. -/
theorem top_brands_by_count_correct (t : List Event) (n : Nat) :
    (top_brands_by_count t n).Pairwise (fun a b => b.2 ≤ a.2)
    ∧ (top_brands_by_count t n).length = min n (brandKeys t).length
    ∧ (∀ p ∈ top_brands_by_count t n,
        p.2 = brand_count t p.1 ∧ ∃ r ∈ t, r.brand = some p.1)
    ∧ (∀ b ∈ brandKeys t, (b, brand_count t b) ∉ top_brands_by_count t n →
        ∀ p ∈ top_brands_by_count t n, brand_count t b ≤ p.2)
    ∧ ((top_brands_by_count t n).map Prod.fst).Nodup
    ∧ top_brands_by_count exampleBrands 2 = [("A", 3), ("B", 2)] := by
  obtain ⟨h1, h2, h3, h4, h5⟩ :=
    topBy_spec (brandKeys t) (brand_count t) n
  refine ⟨h1, h2, ?_, h4, h5 (nodup_uniq _), by decide⟩
  intro p hp
  obtain ⟨hk, hv⟩ := h3 p hp
  exact ⟨hv, mem_brandKeys hk⟩

/-- Claim C6: `events_per_day_by_type` is a table indexed by
`(date, event_type)` whose entries are event counts: every entry's
value is the number of rows with that key, and a key occurs in the
table exactly when some row carries it.  On two rows on the same date
with different event types it produces two entries for that date, one
per type, each with count 1. -/
theorem events_per_day_by_type_correct (t : List Event) :
    (∀ p ∈ events_per_day_by_type t,
        p.2 = t.countP (fun r => decide (dayTypeKey r = p.1)))
    ∧ (∀ k : Nat × String,
        (∃ r ∈ t, dayTypeKey r = k) ↔
          (k, t.countP (fun r => decide (dayTypeKey r = k))) ∈
            events_per_day_by_type t)
    ∧ events_per_day_by_type exampleTwoTypes =
        [((0, "view"), 1), ((0, "purchase"), 1)] := by
  refine ⟨?_, ?_, by decide⟩
  · intro p hp
    obtain ⟨k, hk, rfl⟩ := List.mem_map.mp hp
    rfl
  · intro k
    constructor
    · rintro ⟨r, hr, hk⟩
      refine List.mem_map.mpr ⟨k, ?_, rfl⟩
      rw [mem_uniq]
      exact List.mem_map.mpr ⟨r, hr, hk⟩
    · intro hmem
      obtain ⟨k', hk', hkk⟩ := List.mem_map.mp hmem
      have hk'k : k' = k := congrArg Prod.fst hkk
      subst hk'k
      obtain ⟨r, hr, hrk⟩ := List.mem_map.mp ((mem_uniq _ k').mp hk')
      exact ⟨r, hr, hrk⟩

/-- Claim C10: rows whose `brand` is null are excluded from the group
keys of every brand aggregation — every entry of
`top_brands_by_count`, `top_brands_by_purchase_value` and
`top_brands_by_unique_purchased_products` is keyed by a brand that
some row carries as a non-null value (the key sets are built from the
non-null brand values only, as pandas `value_counts` / `groupby` drop
null keys). -/
theorem null_brand_rows_excluded (t : List Event) (n : Nat) :
    (∀ p ∈ top_brands_by_count t n, ∃ r ∈ t, r.brand = some p.1)
    ∧ (∀ p ∈ top_brands_by_purchase_value t n, ∃ r ∈ t, r.brand = some p.1)
    ∧ (∀ p ∈ top_brands_by_unique_purchased_products t n,
        ∃ r ∈ t, r.brand = some p.1) := by
  refine ⟨?_, ?_, ?_⟩
  · intro p hp
    exact mem_brandKeys
      ((topBy_spec (brandKeys t) (brand_count t) n).2.2.1 p hp).1
  · intro p hp
    exact mem_brandKeys
      ((topBy_spec (brandKeys t) (brand_sales_value t) n).2.2.1 p hp).1
  · intro p hp
    have hk := ((topBy_spec (brandKeys (purchasedRows t))
      (brand_unique_products t) n).2.2.1 p hp).1
    obtain ⟨r, hr, hrb⟩ := mem_brandKeys hk
    exact ⟨r, List.mem_filter.mp hr |>.1, hrb⟩

/-- Claim C7: for every source whose CSV is malformed, or whose
`event_time` column is absent, or one of whose `event_time` cells is
unparseable, `load_data` fails with a load error, and the pipeline
run returns that error — it halts before any filtering or
aggregation runs (no `Except.ok` output is produced). -/
theorem loader_error_halts_pipeline (rows : Csv) (s e : Nat)
    (h : read_csv rows = .error .parseError
      ∨ (∃ hs body, read_csv rows = .ok (hs, body)
          ∧ hs.findIdx? (fun c => decide (c = "event_time")) = none)
      ∨ (∃ hs body i, read_csv rows = .ok (hs, body)
          ∧ hs.findIdx? (fun c => decide (c = "event_time")) = some i
          ∧ ∃ r ∈ body, parse_timestamp (r.getD i "") = none)) :
    ∃ err, load_data rows = .error err
      ∧ runPipeline rows s e = .error err := by
  rcases h with h | ⟨hs, body, hok, hidx⟩ | ⟨hs, body, i, hok, hidx, hcell⟩
  · exact ⟨.parseError, by simp [load_data, h],
      by simp [runPipeline, load_data, h]⟩
  · exact ⟨.keyError, by simp [load_data, hok, hidx],
      by simp [runPipeline, load_data, hok, hidx]⟩
  · have hpt := parseTimes_error hcell
    exact ⟨.timestampError, by simp [load_data, hok, hidx, hpt],
      by simp [runPipeline, load_data, hok, hidx, hpt]⟩

/-- Witness for C7: a ragged CSV (second record has three fields, the
header two) is rejected by `read_csv` and the whole pipeline run
halts with that error. -/
theorem loader_error_halts_pipeline_witness :
    read_csv badCsv = Except.error LoadError.parseError
    ∧ ∃ err, load_data badCsv = Except.error err
        ∧ runPipeline badCsv 0 0 = Except.error err :=
  ⟨rfl, loader_error_halts_pipeline badCsv 0 0 (Or.inl rfl)⟩

/-- Claim C8: loading the same CSV source (identical bytes) twice
through the memoized loader yields identical results: from any
well-formed cache, the first call returns exactly the fresh-parse
result, the repeated call returns the same result, the repeated call
touches the cache only by reading it (the cache is unchanged, i.e. the
result is served from the cache rather than re-parsed), and the cache
stays well formed. -/
theorem load_data_memoization_consistent (cache : Cache) (input : Csv)
    (hwf : CacheWF cache) :
    (load_data_cached cache input).1 = load_data input
    ∧ (load_data_cached (load_data_cached cache input).2 input).1 =
        (load_data_cached cache input).1
    ∧ (load_data_cached (load_data_cached cache input).2 input).2 =
        (load_data_cached cache input).2
    ∧ CacheWF (load_data_cached cache input).2 := by
  cases hfind : cache.find? (fun p => decide (p.1 = input)) with
  | none =>
      have h1 : load_data_cached cache input =
          (load_data input, (input, load_data input) :: cache) := by
        rw [load_data_cached, hfind]
      have h2 : load_data_cached ((input, load_data input) :: cache) input =
          (load_data input, (input, load_data input) :: cache) := by
        rw [load_data_cached]
        simp [List.find?]
      refine ⟨by rw [h1], ?_, ?_, ?_⟩
      · rw [h1, h2]
      · rw [h1, h2]
      · rw [h1]
        intro p hp
        rcases List.mem_cons.mp hp with hph | hpt
        · rw [hph]
        · exact hwf p hpt
  | some q =>
      have hq : q ∈ cache := List.mem_of_find?_eq_some hfind
      have hpq := List.find?_some hfind
      have hqi : q.1 = input := by simpa using hpq
      have h1 : load_data_cached cache input = (q.2, cache) := by
        rw [load_data_cached, hfind]
      have hql : q.2 = load_data input := hqi ▸ hwf q hq
      refine ⟨by rw [h1]; exact hql, ?_, ?_, ?_⟩
      · rw [h1, h1]
      · rw [h1, h1]
      · rw [h1]; exact hwf

/-- Witness for C8: from the empty cache (trivially well formed), a
well-formed one-column CSV parses to a concrete frame, and the
repeated call returns the identical result from the cache. -/
theorem load_data_memoization_consistent_witness :
    load_data goodCsv = Except.ok ⟨["event_time"], [["0"]], [0]⟩
    ∧ CacheWF []
    ∧ ((load_data_cached [] goodCsv).1 = load_data goodCsv
      ∧ (load_data_cached (load_data_cached [] goodCsv).2 goodCsv).1 =
          (load_data_cached [] goodCsv).1
      ∧ (load_data_cached (load_data_cached [] goodCsv).2 goodCsv).2 =
          (load_data_cached [] goodCsv).2
      ∧ CacheWF (load_data_cached [] goodCsv).2) :=
  ⟨rfl, fun p hp => absurd hp (List.not_mem_nil p),
    load_data_memoization_consistent [] goodCsv
      (fun p hp => absurd hp (List.not_mem_nil p))⟩

end Dashboard
